import Mathlib

/-!
Verification development for the tedxsdg configuration-to-pipeline
orchestration engine: a shallow embedding of
`tools/tool_registry.py` (ToolRegistry) and
`crewai_manager/manager.py` (CrewAIManager), together with proofs of the
behavioural properties stated in the specification.

Conventions of the embedding:
* Python dicts that preserve insertion order are modelled as association
  lists `List (String × β)`; lookup is first-match, insertion appends.
* Python exceptions are modelled by `Except`: each distinguishable
  exception becomes a constructor of an error inductive.
* External collaborators (the concrete tool constructors, the crewai
  agent factory, the crewai `Task`/`Crew` pydantic validation) are
  parameters of the embedded operations.
* In-place mutation of `self.tools` / `self.agents` / `self.tasks` is
  modelled by explicit state passing; an operation returns the
  post-state even when it raises, mirroring Python in-place mutation.
-/

deriving instance DecidableEq for Except

/-- Association-list lookup with first-match semantics; models a Python
dict read (`d.get(k)` / `k in d`). -/
def lookupS {β : Type} : List (String × β) → String → Option β
  | [], _ => none
  | (k, v) :: rest, name => if k = name then some v else lookupS rest name

theorem lookupS_nil {β : Type} (k : String) : lookupS ([] : List (String × β)) k = none := rfl

theorem lookupS_cons {β : Type} (k k' : String) (v : β) (l : List (String × β)) :
    lookupS ((k, v) :: l) k' = if k = k' then some v else lookupS l k' := rfl

theorem lookupS_append {β : Type} (l₁ l₂ : List (String × β)) (k : String) :
    lookupS (l₁ ++ l₂) k =
      match lookupS l₁ k with
      | some v => some v
      | none => lookupS l₂ k := by
  induction l₁ with
  | nil => simp [lookupS]
  | cons p rest ih =>
    obtain ⟨k', v⟩ := p
    by_cases h : k' = k
    · simp [lookupS, h]
    · simp [lookupS, h, ih]

theorem lookupS_append_right {β : Type} {l₁ : List (String × β)} {k : String}
    (h : lookupS l₁ k = none) (l₂ : List (String × β)) :
    lookupS (l₁ ++ l₂) k = lookupS l₂ k := by
  rw [lookupS_append, h]

theorem lookupS_append_left {β : Type} {l₁ : List (String × β)} {k : String} {v : β}
    (h : lookupS l₁ k = some v) (l₂ : List (String × β)) :
    lookupS (l₁ ++ l₂) k = some v := by
  rw [lookupS_append, h]

theorem lookupS_singleton_ne {β : Type} {k k' : String} (h : k ≠ k') (v : β) :
    lookupS [(k, v)] k' = none := by
  simp [lookupS, h]

/-! ## Configuration data model

`schemas/config_schemas.py` (the pydantic models `LLMConfig`,
`EmbedderConfig`, `ToolConfig`) is not part of the sources; the shapes below
follow how `tool_registry.py` and `manager.py` read those objects, and the
spec where the sources are silent. -/

/-- Nested `config` block of the LLM configuration, as read by
`ToolRegistry._create_tool` (`self.llm_config.config.model` etc.).
Temperature is an integer in the model (the code uses a float; the claims
only compare temperatures with 0). -/
structure LLMInnerConfig where
  model : String
  temperature : Int
  top_p : Option Int
  stream : Option Bool
deriving DecidableEq, Repr

/-- LLM configuration object held by the registry
(`self.llm_config.provider`, `self.llm_config.config`). -/
structure LLMConfig where
  provider : String
  config : LLMInnerConfig
deriving DecidableEq, Repr

/-- Modelled from the spec: `EmbedderConfig` lives in the missing
`schemas/config_schemas.py`; per spec section 3 it carries a provider, a
model and the ordered `data_paths`. -/
structure EmbedderConfig where
  provider : String
  model : String
  data_paths : List String
deriving DecidableEq, Repr

/-- Raw (untyped) `embedder_config` override mapping found in a tools
document entry. -/
structure EmbedderOverride where
  provider : Option String
  model : Option String
  data_paths : Option (List String)
deriving DecidableEq, Repr

/-- Modelled from the spec: the conversion `EmbedderConfig(**conf)` done in
`ToolRegistry._create_tool`; the pydantic schema is missing from the
sources, so absent fields are filled with the defaults the manager itself
uses for the embedder. -/
def embedderFromOverride (o : EmbedderOverride) : EmbedderConfig :=
  { provider := o.provider.getD "ollama"
    model := o.model.getD "nomic-embed-text"
    data_paths := o.data_paths.getD [] }

/-- One value of the tools document: `data_path` (optional) and
`embedder_config` (optional overrides), as read by both
`ToolRegistry._create_tool` and `CrewAIManager._initialize_tool_config`. -/
structure RawToolEntry where
  data_path : Option String
  embedder_config : Option EmbedderOverride
deriving DecidableEq, Repr

/-! ## ToolRegistry -/

/-- Errors a `ToolRegistry` operation can raise. `unknownTool` and
`missingDataPath` are the two `ValueError`s raised by the registry itself;
`constructionError` is any exception raised by a concrete tool constructor
(carried verbatim, as the bare `raise` in `get_tool` re-raises the original
exception); `stackOverflow` models running out of stack in the recursive
predecessor walk (the spec notes cycles are not detected). -/
inductive RegErr where
  | unknownTool (name : String)
  | missingDataPath (name : String)
  | constructionError (msg : String)
  | stackOverflow
deriving DecidableEq, Repr

/-- Keyword arguments handed to a concrete tool constructor by
`ToolRegistry._create_tool` (`tool_class(**tool_kwargs)`): the llm config
dict, the embedder config dict and the data path. -/
structure ToolKwargs where
  llm_config : LLMConfig
  embedder_config : EmbedderConfig
  data_path : Option String
deriving DecidableEq, Repr

/-- External collaborator: the concrete tool constructors
(`TEDxSearchTool`, `TEDxSlugTool`, ... are outside the core). Given the tool
name and kwargs it returns an instance or raises (error message). -/
abbrev CtorEnv (τ : Type) := String → ToolKwargs → Except String τ

/-- State of a `ToolRegistry`: the validated configs, the loaded tools
document and the memoization table `self.tools` (insertion-ordered). -/
structure Registry (τ : Type) where
  llm_config : LLMConfig
  embedder_config : EmbedderConfig
  tool_configs : List (String × RawToolEntry)
  tools : List (String × τ)
deriving DecidableEq, Repr

/-- Tools that require a backing data source, from the literal list in
`ToolRegistry._create_tool`. -/
def dataRequired : List String := ["tedx_search", "tedx_slug", "tedx_transcript"]

/-- Python truthiness of the configured data path: `not data_path` is true
for a missing entry, a `None` value or an empty string. -/
def falsyPath : Option String → Bool
  | none => true
  | some s => s == ""

/-- Embedding of `ToolRegistry._create_tool`: read the tool settings from
the tools document, convert the embedder override, reject data-requiring
tools without a data path, then invoke the concrete constructor. The second
component records the constructor invocation (used to account for
at-most-once construction). -/
def createTool {τ : Type} (env : CtorEnv τ) (reg : Registry τ) (name : String) :
    Except RegErr τ × List String :=
  let cfg := (lookupS reg.tool_configs name).getD ⟨none, none⟩
  let embedder_conf := embedderFromOverride (cfg.embedder_config.getD ⟨none, none, none⟩)
  let data_path := cfg.data_path
  if dataRequired.contains name && falsyPath data_path then
    (.error (.missingDataPath name), [])
  else
    match env name ⟨reg.llm_config, embedder_conf, data_path⟩ with
    | .ok t => (.ok t, [name])
    | .error msg => (.error (.constructionError msg), [name])

/-- Result of a `get_tool` call: the post-call registry (mutations survive
an exception), the returned tool or the raised error, and the names for
which a concrete constructor was invoked, in invocation order. -/
abbrev RegOut (τ : Type) := Registry τ × Except RegErr τ × List String

/-- Tail of a `get_tool` branch that constructs the requested tool: on
success the instance is memoized (`self.tools[tool_name] = tool`), on
failure the registry is left unchanged and the error propagates. -/
def finishCreate {τ : Type} (env : CtorEnv τ) (reg : Registry τ) (name : String) : RegOut τ :=
  match createTool env reg name with
  | (.ok t, tr) => ({ reg with tools := reg.tools ++ [(name, t)] }, .ok t, tr)
  | (.error e, tr) => (reg, .error e, tr)

/-- Continuation after a predecessor pre-fetch
(`self.get_tool("tedx_search")` before building `tedx_slug`, and likewise
for `tedx_transcript`): a predecessor failure propagates, a predecessor
success is discarded and the requested tool is then built in the updated
registry. -/
def afterPre {τ : Type} (env : CtorEnv τ) (name : String) : RegOut τ → RegOut τ
  | (reg₁, .ok _, tr₁) =>
      match finishCreate env reg₁ name with
      | (reg₂, r, tr₂) => (reg₂, r, tr₁ ++ tr₂)
  | (reg₁, .error e, tr₁) => (reg₁, .error e, tr₁)

/-- Embedding of `ToolRegistry.get_tool`: memoization check, the hard-coded
name dispatch with predecessor pre-fetches, memoize-on-success, and the
unknown-name failure. The fuel argument bounds the recursive predecessor
walk (the hard-coded chain has depth 3; fuel exhaustion models stack
overflow, which the code does not guard against). -/
def get_tool {τ : Type} (env : CtorEnv τ) : Nat → Registry τ → String → RegOut τ
  | 0, reg, _ => (reg, .error .stackOverflow, [])
  | fuel + 1, reg, name =>
    match lookupS reg.tools name with
    | some t => (reg, .ok t, [])
    | none =>
      if name = "tedx_search" then
        finishCreate env reg name
      else if name = "tedx_slug" then
        afterPre env name (get_tool env fuel reg "tedx_search")
      else if name = "tedx_transcript" then
        afterPre env name (get_tool env fuel reg "tedx_slug")
      else if name = "sdg_align" then
        finishCreate env reg name
      else if name = "sustainability_impact" then
        finishCreate env reg name
      else if name = "duckduckgo_search" then
        finishCreate env reg name
      else
        (reg, .error (.unknownTool name), [])

/-- Tool names recognized by the dispatch in `get_tool`. -/
def knownTools : List String :=
  ["tedx_search", "tedx_slug", "tedx_transcript",
   "sdg_align", "sustainability_impact", "duckduckgo_search"]

/-! ## Registry step lemmas -/

theorem get_tool_zero {τ : Type} (env : CtorEnv τ) (reg : Registry τ) (name : String) :
    get_tool env 0 reg name = (reg, .error .stackOverflow, []) := rfl

theorem get_tool_memo {τ : Type} (env : CtorEnv τ) (f : Nat) {reg : Registry τ} {name : String}
    {t : τ} (h : lookupS reg.tools name = some t) :
    get_tool env (f + 1) reg name = (reg, .ok t, []) := by
  simp [get_tool, h]

theorem get_tool_search_step {τ : Type} (env : CtorEnv τ) (f : Nat) {reg : Registry τ}
    (h : lookupS reg.tools "tedx_search" = none) :
    get_tool env (f + 1) reg "tedx_search" = finishCreate env reg "tedx_search" := by
  simp [get_tool, h]

theorem get_tool_slug_step {τ : Type} (env : CtorEnv τ) (f : Nat) {reg : Registry τ}
    (h : lookupS reg.tools "tedx_slug" = none) :
    get_tool env (f + 1) reg "tedx_slug" =
      afterPre env "tedx_slug" (get_tool env f reg "tedx_search") := by
  simp [get_tool, h]

theorem get_tool_transcript_step {τ : Type} (env : CtorEnv τ) (f : Nat) {reg : Registry τ}
    (h : lookupS reg.tools "tedx_transcript" = none) :
    get_tool env (f + 1) reg "tedx_transcript" =
      afterPre env "tedx_transcript" (get_tool env f reg "tedx_slug") := by
  simp [get_tool, h]

theorem get_tool_sdg_step {τ : Type} (env : CtorEnv τ) (f : Nat) {reg : Registry τ}
    (h : lookupS reg.tools "sdg_align" = none) :
    get_tool env (f + 1) reg "sdg_align" = finishCreate env reg "sdg_align" := by
  simp [get_tool, h]

theorem get_tool_sustain_step {τ : Type} (env : CtorEnv τ) (f : Nat) {reg : Registry τ}
    (h : lookupS reg.tools "sustainability_impact" = none) :
    get_tool env (f + 1) reg "sustainability_impact" =
      finishCreate env reg "sustainability_impact" := by
  simp [get_tool, h]

theorem get_tool_duck_step {τ : Type} (env : CtorEnv τ) (f : Nat) {reg : Registry τ}
    (h : lookupS reg.tools "duckduckgo_search" = none) :
    get_tool env (f + 1) reg "duckduckgo_search" =
      finishCreate env reg "duckduckgo_search" := by
  simp [get_tool, h]

theorem get_tool_unknown_step {τ : Type} (env : CtorEnv τ) (f : Nat) {reg : Registry τ}
    {name : String} (hmem : lookupS reg.tools name = none) (h : name ∉ knownTools) :
    get_tool env (f + 1) reg name = (reg, .error (.unknownTool name), []) := by
  simp only [knownTools, List.mem_cons, List.not_mem_nil, or_false] at h
  push_neg at h
  obtain ⟨h1, h2, h3, h4, h5, h6⟩ := h
  simp [get_tool, hmem, h1, h2, h3, h4, h5, h6]

theorem createTool_shape {τ : Type} (env : CtorEnv τ) (reg : Registry τ) (name : String) :
    (∃ t, createTool env reg name = (.ok t, [name])) ∨
    (∃ e, createTool env reg name = (.error e, []) ∨ createTool env reg name = (.error e, [name])) := by
  simp only [createTool]
  by_cases hc : (dataRequired.contains name &&
      falsyPath ((lookupS reg.tool_configs name).getD ⟨none, none⟩).data_path) = true
  · rw [if_pos hc]
    exact .inr ⟨_, .inl rfl⟩
  · rw [if_neg hc]
    cases henv : env name ⟨reg.llm_config,
        embedderFromOverride
          (((lookupS reg.tool_configs name).getD ⟨none, none⟩).embedder_config.getD ⟨none, none, none⟩),
        ((lookupS reg.tool_configs name).getD ⟨none, none⟩).data_path⟩ with
    | ok t => exact .inl ⟨t, rfl⟩
    | error m => exact .inr ⟨_, .inr rfl⟩

theorem finishCreate_shape {τ : Type} (env : CtorEnv τ) (reg : Registry τ) (name : String) :
    (∃ t, finishCreate env reg name =
        ({ reg with tools := reg.tools ++ [(name, t)] }, .ok t, [name])) ∨
    (∃ e, (finishCreate env reg name).1 = reg ∧ (finishCreate env reg name).2.1 = .error e ∧
        ((finishCreate env reg name).2.2 = [] ∨ (finishCreate env reg name).2.2 = [name])) := by
  rcases createTool_shape env reg name with ⟨t, h⟩ | ⟨e, h | h⟩
  · exact .inl ⟨t, by simp [finishCreate, h]⟩
  · exact .inr ⟨e, by simp [finishCreate, h]⟩
  · exact .inr ⟨e, by simp [finishCreate, h]⟩

/-- Structure of a `get_tool` call for `tedx_search`: the registry gains at
most one entry, keyed `tedx_search`, and any constructor invocation is for
`tedx_search`. -/
theorem get_tool_search_shape {τ : Type} (env : CtorEnv τ) (f : Nat) (reg : Registry τ) :
    ∃ Δ, (get_tool env f reg "tedx_search").1 = { reg with tools := reg.tools ++ Δ } ∧
      (∀ p ∈ Δ, p.1 = "tedx_search") ∧
      (∀ x ∈ (get_tool env f reg "tedx_search").2.2, x = "tedx_search") := by
  match f with
  | 0 => exact ⟨[], by simp [get_tool_zero]⟩
  | f + 1 =>
    cases hmem : lookupS reg.tools "tedx_search" with
    | some t => exact ⟨[], by simp [get_tool_memo env f hmem]⟩
    | none =>
      rw [get_tool_search_step env f hmem]
      rcases finishCreate_shape env reg "tedx_search" with ⟨t, h⟩ | ⟨e, h1, _, h3⟩
      · exact ⟨[("tedx_search", t)], by simp [h]⟩
      · refine ⟨[], by simp [h1], by simp, ?_⟩
        rcases h3 with h3 | h3 <;> simp [h3]

/-- Structure of a `get_tool` call for `tedx_slug`: new registry entries and
constructor invocations are keyed `tedx_search` or `tedx_slug` only. -/
theorem get_tool_slug_shape {τ : Type} (env : CtorEnv τ) (f : Nat) (reg : Registry τ) :
    ∃ Δ, (get_tool env f reg "tedx_slug").1 = { reg with tools := reg.tools ++ Δ } ∧
      (∀ p ∈ Δ, p.1 = "tedx_search" ∨ p.1 = "tedx_slug") ∧
      (∀ x ∈ (get_tool env f reg "tedx_slug").2.2,
        x = "tedx_search" ∨ x = "tedx_slug") := by
  match f with
  | 0 => exact ⟨[], by simp [get_tool_zero]⟩
  | f + 1 =>
    cases hmem : lookupS reg.tools "tedx_slug" with
    | some t => exact ⟨[], by simp [get_tool_memo env f hmem]⟩
    | none =>
      rw [get_tool_slug_step env f hmem]
      rcases hout : get_tool env f reg "tedx_search" with ⟨reg₁, r₁, tr₁⟩
      obtain ⟨Δ₁, hreg₁, hΔ₁, htr₁⟩ := get_tool_search_shape env f reg
      rw [hout] at hreg₁ htr₁
      simp only at hreg₁ htr₁
      subst hreg₁
      cases r₁ with
      | error e =>
        exact ⟨Δ₁, by simp [afterPre], fun p hp => .inl (hΔ₁ p hp),
          fun x hx => .inl (htr₁ x (by simpa [afterPre] using hx))⟩
      | ok u =>
        rcases finishCreate_shape env { reg with tools := reg.tools ++ Δ₁ } "tedx_slug"
          with ⟨t, h⟩ | ⟨e, h1, _, h3⟩
        · refine ⟨Δ₁ ++ [("tedx_slug", t)], ?_, ?_, ?_⟩
          · simp [afterPre, h]
          · intro p hp
            rcases List.mem_append.mp hp with hp | hp
            · exact .inl (hΔ₁ p hp)
            · simp at hp; simp [hp]
          · intro x hx
            simp only [afterPre, h] at hx
            rcases List.mem_append.mp hx with hx | hx
            · exact .inl (htr₁ x hx)
            · simp at hx; simp [hx]
        · rcases hfc : finishCreate env { reg with tools := reg.tools ++ Δ₁ } "tedx_slug"
            with ⟨reg₂, r₂, tr₂⟩
          rw [hfc] at h1 h3
          simp only at h1 h3
          subst h1
          refine ⟨Δ₁, by simp [afterPre, hfc], fun p hp => .inl (hΔ₁ p hp), ?_⟩
          intro x hx
          simp only [afterPre, hfc] at hx
          rcases List.mem_append.mp hx with hx | hx
          · exact .inl (htr₁ x hx)
          · rcases h3 with h3 | h3
            · rw [h3] at hx; simp at hx
            · rw [h3] at hx; simp at hx; simp [hx]

theorem lookupS_none_of_keys {β : Type} {l : List (String × β)} {k : String}
    (h : ∀ p ∈ l, p.1 ≠ k) : lookupS l k = none := by
  induction l with
  | nil => rfl
  | cons p rest ih =>
    obtain ⟨k', v⟩ := p
    have hk : k' ≠ k := h (k', v) (List.mem_cons_self _ _)
    simp [lookupS, hk, ih fun q hq => h q (List.mem_cons_of_mem _ hq)]

theorem finishCreate_ok_fresh {τ : Type} {env : CtorEnv τ} {reg reg' : Registry τ}
    {name : String} {i : τ} {tr : List String}
    (h0 : lookupS reg.tools name = none)
    (h : finishCreate env reg name = (reg', .ok i, tr)) :
    lookupS reg'.tools name = some i ∧ tr.count name = 1 := by
  rcases finishCreate_shape env reg name with ⟨t, hfc⟩ | ⟨e, _, herr, _⟩
  · rw [hfc] at h
    simp only [Prod.mk.injEq, Except.ok.injEq] at h
    obtain ⟨h1, h2, h3⟩ := h
    subst h1; subst h2; subst h3
    constructor
    · rw [lookupS_append_right h0]; simp [lookupS]
    · simp
  · rw [h] at herr; simp at herr


/-- Successful construction of a not-yet-memoized tool memoizes exactly that
instance and invokes the underlying constructor exactly once for that
name. -/
theorem get_tool_ok_fresh {τ : Type} {env : CtorEnv τ} {f : Nat} {reg reg' : Registry τ}
    {name : String} {i : τ} {tr : List String}
    (h0 : lookupS reg.tools name = none)
    (h : get_tool env f reg name = (reg', .ok i, tr)) :
    lookupS reg'.tools name = some i ∧ tr.count name = 1 := by
  match f with
  | 0 => exact Except.noConfusion (congrArg (fun p => p.2.1) h)
  | f + 1 =>
    by_cases hn1 : name = "tedx_search"
    · subst hn1
      rw [get_tool_search_step env f h0] at h
      exact finishCreate_ok_fresh h0 h
    by_cases hn2 : name = "tedx_slug"
    · subst hn2
      rw [get_tool_slug_step env f h0] at h
      rcases hout : get_tool env f reg "tedx_search" with ⟨reg₁, r₁, tr₁⟩
      obtain ⟨Δ₁, hreg₁, hΔ₁, htr₁⟩ := get_tool_search_shape env f reg
      rw [hout] at hreg₁ htr₁ h
      simp only at hreg₁ htr₁
      subst hreg₁
      cases r₁ with
      | error e => exact Except.noConfusion (congrArg (fun p => p.2.1) h)
      | ok u =>
        rcases hfc : finishCreate env { reg with tools := reg.tools ++ Δ₁ } "tedx_slug"
          with ⟨reg₂, r₂, tr₂⟩
        try simp only [afterPre] at h
        rw [hfc] at h
        have h2 : ((reg₂ : Registry τ), r₂, tr₁ ++ tr₂) = (reg', Except.ok i, tr) := h
        clear h
        simp only [Prod.mk.injEq] at h2
        obtain ⟨hr, hres, htr⟩ := h2
        subst hr; subst hres; subst htr
        have h0' : lookupS ({ reg with tools := reg.tools ++ Δ₁ } : Registry τ).tools
            "tedx_slug" = none := by
          simp only
          rw [lookupS_append_right h0]
          exact lookupS_none_of_keys fun p hp => by simp [hΔ₁ p hp]
        obtain ⟨hmem, hcount⟩ := finishCreate_ok_fresh h0' hfc
        refine ⟨hmem, ?_⟩
        rw [List.count_append, hcount]
        have hz : tr₁.count "tedx_slug" = 0 := by
          refine List.count_eq_zero.mpr fun hc => ?_
          have := htr₁ _ hc
          simp at this
        omega
    by_cases hn3 : name = "tedx_transcript"
    · subst hn3
      rw [get_tool_transcript_step env f h0] at h
      rcases hout : get_tool env f reg "tedx_slug" with ⟨reg₁, r₁, tr₁⟩
      obtain ⟨Δ₁, hreg₁, hΔ₁, htr₁⟩ := get_tool_slug_shape env f reg
      rw [hout] at hreg₁ htr₁ h
      simp only at hreg₁ htr₁
      subst hreg₁
      cases r₁ with
      | error e => exact Except.noConfusion (congrArg (fun p => p.2.1) h)
      | ok u =>
        rcases hfc : finishCreate env { reg with tools := reg.tools ++ Δ₁ } "tedx_transcript"
          with ⟨reg₂, r₂, tr₂⟩
        try simp only [afterPre] at h
        rw [hfc] at h
        have h2 : ((reg₂ : Registry τ), r₂, tr₁ ++ tr₂) = (reg', Except.ok i, tr) := h
        clear h
        simp only [Prod.mk.injEq] at h2
        obtain ⟨hr, hres, htr⟩ := h2
        subst hr; subst hres; subst htr
        have h0' : lookupS ({ reg with tools := reg.tools ++ Δ₁ } : Registry τ).tools
            "tedx_transcript" = none := by
          simp only
          rw [lookupS_append_right h0]
          refine lookupS_none_of_keys fun p hp => ?_
          rcases hΔ₁ p hp with hk | hk <;> simp [hk]
        obtain ⟨hmem, hcount⟩ := finishCreate_ok_fresh h0' hfc
        refine ⟨hmem, ?_⟩
        rw [List.count_append, hcount]
        have hz : tr₁.count "tedx_transcript" = 0 := by
          refine List.count_eq_zero.mpr fun hc => ?_
          rcases htr₁ _ hc with hk | hk <;> simp at hk
        omega
    by_cases hn4 : name = "sdg_align"
    · subst hn4
      rw [get_tool_sdg_step env f h0] at h
      exact finishCreate_ok_fresh h0 h
    by_cases hn5 : name = "sustainability_impact"
    · subst hn5
      rw [get_tool_sustain_step env f h0] at h
      exact finishCreate_ok_fresh h0 h
    by_cases hn6 : name = "duckduckgo_search"
    · subst hn6
      rw [get_tool_duck_step env f h0] at h
      exact finishCreate_ok_fresh h0 h
    rw [get_tool_unknown_step env f h0
      (by simp [knownTools, hn1, hn2, hn3, hn4, hn5, hn6])] at h
    exact Except.noConfusion (congrArg (fun p => p.2.1) h)

theorem finishCreate_ok_inv {τ : Type} {env : CtorEnv τ} {reg reg' : Registry τ}
    {name : String} {i : τ} {tr : List String}
    (h : finishCreate env reg name = (reg', .ok i, tr)) :
    reg' = { reg with tools := reg.tools ++ [(name, i)] } ∧ tr = [name] := by
  rcases finishCreate_shape env reg name with ⟨t, hfc⟩ | ⟨e, _, herr, _⟩
  · rw [hfc] at h
    simp only [Prod.mk.injEq, Except.ok.injEq] at h
    obtain ⟨h1, h2, h3⟩ := h
    subst h2
    exact ⟨h1.symm, h3.symm⟩
  · rw [h] at herr; simp at herr

theorem afterPre_ok_inv {τ : Type} {env : CtorEnv τ} {name : String}
    {regp reg' : Registry τ} {u i : τ} {trp tr : List String}
    (h : afterPre env name (regp, Except.ok u, trp) = (reg', Except.ok i, tr)) :
    ∃ tr₂, finishCreate env regp name = (reg', Except.ok i, tr₂) ∧ tr = trp ++ tr₂ := by
  rcases hfc : finishCreate env regp name with ⟨reg₂, r₂, tr₂⟩
  have h2 : ((reg₂ : Registry τ), r₂, trp ++ tr₂) = (reg', Except.ok i, tr) := by
    rw [← h]; simp [afterPre, hfc]
  simp only [Prod.mk.injEq] at h2
  obtain ⟨hr, hres, htr⟩ := h2
  subst hr; subst hres; subst htr
  exact ⟨tr₂, rfl, rfl⟩

/-- C1: for any tool name t not yet memoized, a successful get_tool(t)
invokes the underlying tool constructor exactly once for t, and a second
get_tool(t) on the resulting registry returns the identical memoized
instance, leaves the registry state unchanged, and performs no further
constructor invocation. -/
theorem get_tool_idempotent {τ : Type} (env : CtorEnv τ) (f f' : Nat) (reg reg' : Registry τ)
    (t : String) (i : τ) (tr : List String)
    (h0 : lookupS reg.tools t = none)
    (h : get_tool env f reg t = (reg', .ok i, tr)) :
    tr.count t = 1 ∧ get_tool env (f' + 1) reg' t = (reg', .ok i, []) := by
  obtain ⟨hmem, hcount⟩ := get_tool_ok_fresh h0 h
  exact ⟨hcount, get_tool_memo env f' hmem⟩

/-- Concrete constructor environment for witnesses: every concrete tool
constructor succeeds and returns the instance 0. -/
def env0 : CtorEnv Nat := fun _ _ => .ok 0

def llm0 : LLMConfig := ⟨"ollama", ⟨"llama3", 1, none, none⟩⟩

def emb0 : EmbedderConfig := ⟨"ollama", "nomic-embed-text", ["data/tedx.csv"]⟩

/-- Tools document for witnesses: the three data-requiring tools all carry a
data path. -/
def toolsDoc0 : List (String × RawToolEntry) :=
  [("tedx_search", ⟨some "data/tedx.csv", none⟩),
   ("tedx_slug", ⟨some "data/tedx.csv", none⟩),
   ("tedx_transcript", ⟨some "data/tedx.csv", none⟩)]

/-- Fresh registry for witnesses: nothing memoized yet. -/
def reg0 : Registry Nat := ⟨llm0, emb0, toolsDoc0, []⟩

/-- Witness for C1 at a concrete registry: the first get_tool call on
tedx_search invokes its constructor once, and the repeated call returns the
same memoized instance with the registry unchanged. -/
theorem get_tool_idempotent_witness :
    (["tedx_search"] : List String).count "tedx_search" = 1 ∧
    get_tool env0 (0 + 1) { reg0 with tools := [("tedx_search", 0)] } "tedx_search" =
      ({ reg0 with tools := [("tedx_search", 0)] }, .ok 0, []) :=
  get_tool_idempotent env0 1 0 reg0 { reg0 with tools := [("tedx_search", 0)] }
    "tedx_search" 0 ["tedx_search"] rfl (by decide)

/-- C2: requesting tedx_transcript from any registry state in which none of
the chain tedx_search, tedx_slug, tedx_transcript is yet constructed builds
tedx_search first, then tedx_slug, then tedx_transcript, and memoizes the
two predecessors even though the caller did not request them. The starting
registry is arbitrary, so any earlier requests of unrelated tools are
covered. -/
theorem get_tool_precedence_chain {τ : Type} (env : CtorEnv τ) (f : Nat)
    (reg reg' : Registry τ) (i : τ) (tr : List String)
    (h1 : lookupS reg.tools "tedx_search" = none)
    (h2 : lookupS reg.tools "tedx_slug" = none)
    (h3 : lookupS reg.tools "tedx_transcript" = none)
    (h : get_tool env f reg "tedx_transcript" = (reg', .ok i, tr)) :
    tr = ["tedx_search", "tedx_slug", "tedx_transcript"] ∧
    (∃ a, lookupS reg'.tools "tedx_search" = some a) ∧
    (∃ b, lookupS reg'.tools "tedx_slug" = some b) ∧
    lookupS reg'.tools "tedx_transcript" = some i := by
  match f with
  | 0 => exact Except.noConfusion (congrArg (fun p => p.2.1) h)
  | f₁ + 1 =>
    rw [get_tool_transcript_step env f₁ h3] at h
    rcases hB : get_tool env f₁ reg "tedx_slug" with ⟨regB, rB, trB⟩
    rw [hB] at h
    cases rB with
    | error e => exact Except.noConfusion (congrArg (fun p => p.2.1) h)
    | ok b =>
      obtain ⟨trC, hfcC, htrC⟩ := afterPre_ok_inv h
      obtain ⟨hregC, htrC2⟩ := finishCreate_ok_inv hfcC
      cases f₁ with
      | zero => exact Except.noConfusion (congrArg (fun p => p.2.1) hB)
      | succ f₂ =>
        rw [get_tool_slug_step env f₂ h2] at hB
        rcases hA : get_tool env f₂ reg "tedx_search" with ⟨regA, rA, trA⟩
        rw [hA] at hB
        cases rA with
        | error e => exact Except.noConfusion (congrArg (fun p => p.2.1) hB)
        | ok a =>
          obtain ⟨trBc, hfcB, htrB⟩ := afterPre_ok_inv hB
          obtain ⟨hregB, htrBc⟩ := finishCreate_ok_inv hfcB
          cases f₂ with
          | zero => exact Except.noConfusion (congrArg (fun p => p.2.1) hA)
          | succ f₃ =>
            rw [get_tool_search_step env f₃ h1] at hA
            obtain ⟨hregA, htrA⟩ := finishCreate_ok_inv hA
            subst hregA; subst hregB; subst hregC
            subst htrA; subst htrBc; subst htrC2; subst htrB; subst htrC
            refine ⟨by simp, ?_, ?_, ?_⟩
            · refine ⟨a, ?_⟩
              have hs : lookupS (reg.tools ++ [("tedx_search", a)]) "tedx_search" = some a := by
                rw [lookupS_append_right h1]; simp [lookupS]
              simp only
              exact lookupS_append_left (lookupS_append_left hs _) _
            · refine ⟨b, ?_⟩
              have hs0 : lookupS (reg.tools ++ [("tedx_search", a)]) "tedx_slug" = none := by
                rw [lookupS_append_right h2]; simp [lookupS]
              have hs : lookupS ((reg.tools ++ [("tedx_search", a)]) ++ [("tedx_slug", b)])
                  "tedx_slug" = some b := by
                rw [lookupS_append_right hs0]; simp [lookupS]
              simp only
              exact lookupS_append_left hs _
            · have hs0 : lookupS ((reg.tools ++ [("tedx_search", a)]) ++ [("tedx_slug", b)])
                  "tedx_transcript" = none := by
                rw [lookupS_append_right (by rw [lookupS_append_right h3]; simp [lookupS])]
                simp [lookupS]
              simp only
              rw [lookupS_append_right hs0]; simp [lookupS]

/-- Witness for C2 on the concrete fresh registry: requesting
tedx_transcript first constructs search, slug, transcript in that order and
memoizes all three. -/
theorem get_tool_precedence_chain_witness :
    (get_tool env0 3 reg0 "tedx_transcript").2.2 =
        ["tedx_search", "tedx_slug", "tedx_transcript"] ∧
    (∃ a, lookupS (get_tool env0 3 reg0 "tedx_transcript").1.tools "tedx_search" = some a) ∧
    (∃ b, lookupS (get_tool env0 3 reg0 "tedx_transcript").1.tools "tedx_slug" = some b) ∧
    lookupS (get_tool env0 3 reg0 "tedx_transcript").1.tools "tedx_transcript" = some 0 := by
  have h : get_tool env0 3 reg0 "tedx_transcript" =
      ((get_tool env0 3 reg0 "tedx_transcript").1, .ok 0,
        (get_tool env0 3 reg0 "tedx_transcript").2.2) := by decide
  exact get_tool_precedence_chain env0 3 reg0 _ 0 _ rfl rfl rfl h

/-! ## Registry failure modes (C8, C9) -/

/-- Hard-coded precedence predecessor of a tool in get_tool's dispatch:
tedx_slug pre-fetches tedx_search, tedx_transcript pre-fetches tedx_slug. -/
def predOf (t : String) : Option String :=
  if t = "tedx_slug" then some "tedx_search"
  else if t = "tedx_transcript" then some "tedx_slug"
  else none

/-- Does the first character list start with the second. -/
def startsWithL : List Char → List Char → Bool
  | _, [] => true
  | [], _ :: _ => false
  | a :: as, b :: bs => a == b && startsWithL as bs

/-- Does the second character list occur contiguously inside the first. -/
def hasSubL : List Char → List Char → Bool
  | [], need => startsWithL [] need
  | c :: rest, need => startsWithL (c :: rest) need || hasSubL rest need

/-- Does the string hay contain the string need as a substring. -/
def strContainsSub (hay need : String) : Bool := hasSubL hay.data need.data

/-- Claim-side predicate following the words of the spec: an error carries
the tool name attached when its payload mentions that name. The two
registry-raised ValueErrors embed a name directly; a propagated constructor
error carries the name only if its own message happens to mention it. -/
def errorNamesTool : RegErr → String → Bool
  | .unknownTool n, t => n == t
  | .missingDataPath n, t => n == t
  | .constructionError m, t => strContainsSub m t
  | .stackOverflow, _ => false

theorem createTool_missing {τ : Type} (env : CtorEnv τ) (reg : Registry τ) {t : String}
    (hc : dataRequired.contains t = true)
    (hpath : falsyPath ((lookupS reg.tool_configs t).getD ⟨none, none⟩).data_path = true) :
    createTool env reg t = (.error (.missingDataPath t), []) := by
  simp only [createTool]
  rw [if_pos (show (dataRequired.contains t &&
    falsyPath ((lookupS reg.tool_configs t).getD ⟨none, none⟩).data_path) = true by
      rw [hc, hpath]; rfl)]

theorem createTool_env {τ : Type} (env : CtorEnv τ) (reg : Registry τ) {t : String}
    (hc : (dataRequired.contains t &&
      falsyPath ((lookupS reg.tool_configs t).getD ⟨none, none⟩).data_path) = false) :
    createTool env reg t =
      (match env t ⟨reg.llm_config,
          embedderFromOverride
            (((lookupS reg.tool_configs t).getD ⟨none, none⟩).embedder_config.getD
              ⟨none, none, none⟩),
          ((lookupS reg.tool_configs t).getD ⟨none, none⟩).data_path⟩ with
        | .ok x => (.ok x, [t])
        | .error m => (.error (.constructionError m), [t])) := by
  simp only [createTool]
  rw [if_neg (show ¬((dataRequired.contains t &&
    falsyPath ((lookupS reg.tool_configs t).getD ⟨none, none⟩).data_path) = true) by
      rw [hc]; exact Bool.false_ne_true)]

/-- Registry whose tools document configures a data path only for
tedx_search; tedx_slug and tedx_transcript have no entry at all. -/
def regC8 : Registry Nat := ⟨llm0, emb0, [("tedx_search", ⟨some "data/tedx.csv", none⟩)], []⟩

/-- Counterexample to C8 as stated: the tools document has no data path for
tedx_transcript, yet get_tool on tedx_transcript fails with a
MissingDataPathError naming the predecessor tedx_slug (whose path is also
missing), not the requested tool. -/
theorem missing_data_path_cex :
    falsyPath ((lookupS regC8.tool_configs "tedx_transcript").getD ⟨none, none⟩).data_path
        = true ∧
    (get_tool env0 3 regC8 "tedx_transcript").2.1 =
        .error (.missingDataPath "tedx_slug") ∧
    (get_tool env0 3 regC8 "tedx_transcript").2.1 ≠
        .error (.missingDataPath "tedx_transcript") := by decide

/-- C8 amended: for a data-requiring tool t whose configured data path is
missing or empty, when t is not yet memoized and the precedence predecessor
of t (if any) is already constructed, get_tool t fails with a
MissingDataPathError naming t itself, invokes no constructor, and leaves
the registry unchanged, so no entry for t is memoized and a later call
attempts construction again. -/
theorem missing_data_path_amended {τ : Type} (env : CtorEnv τ) (f : Nat) (reg : Registry τ)
    (t : String)
    (ht : t ∈ dataRequired)
    (hmem : lookupS reg.tools t = none)
    (hpath : falsyPath ((lookupS reg.tool_configs t).getD ⟨none, none⟩).data_path = true)
    (hpred : ∀ p, predOf t = some p → ∃ x, lookupS reg.tools p = some x) :
    get_tool env (f + 2) reg t = (reg, .error (.missingDataPath t), []) := by
  simp only [dataRequired, List.mem_cons, List.not_mem_nil, or_false] at ht
  rcases ht with rfl | rfl | rfl
  · have hfc : finishCreate env reg "tedx_search" =
        (reg, .error (.missingDataPath "tedx_search"), []) := by
      simp [finishCreate, createTool_missing env reg (by decide) hpath]
    rw [show f + 2 = (f + 1) + 1 by omega, get_tool_search_step env (f + 1) hmem]
    exact hfc
  · have hfc : finishCreate env reg "tedx_slug" =
        (reg, .error (.missingDataPath "tedx_slug"), []) := by
      simp [finishCreate, createTool_missing env reg (by decide) hpath]
    obtain ⟨x, hx⟩ := hpred "tedx_search" (by simp [predOf])
    rw [show f + 2 = (f + 1) + 1 by omega, get_tool_slug_step env (f + 1) hmem,
      get_tool_memo env f hx]
    simp [afterPre, hfc]
  · have hfc : finishCreate env reg "tedx_transcript" =
        (reg, .error (.missingDataPath "tedx_transcript"), []) := by
      simp [finishCreate, createTool_missing env reg (by decide) hpath]
    obtain ⟨x, hx⟩ := hpred "tedx_slug" (by simp [predOf])
    rw [show f + 2 = (f + 1) + 1 by omega, get_tool_transcript_step env (f + 1) hmem,
      get_tool_memo env f hx]
    simp [afterPre, hfc]

/-- Registry with an empty tools document and nothing memoized. -/
def regEmptyCfg : Registry Nat := ⟨llm0, emb0, [], []⟩

/-- Witness for the amended C8: requesting tedx_search with no configured
data path fails with a MissingDataPathError naming tedx_search and leaves
the registry unchanged. -/
theorem missing_data_path_amended_witness :
    get_tool env0 (0 + 2) regEmptyCfg "tedx_search" =
      (regEmptyCfg, .error (.missingDataPath "tedx_search"), []) :=
  missing_data_path_amended env0 0 regEmptyCfg "tedx_search" (by decide) rfl (by decide)
    (fun p hp => by simp [predOf] at hp)

/-- Constructor environment in which every concrete tool constructor raises
with the message "boom". -/
def envBoom : CtorEnv Nat := fun _ _ => .error "boom"

/-- Counterexample to C9 as stated: a constructor failure propagates out of
get_tool as the constructor's own exception, unchanged; no tool name is
attached to it. -/
theorem error_wrapping_cex :
    (get_tool envBoom 1 regEmptyCfg "sdg_align").2.1 =
        .error (.constructionError "boom") ∧
    errorNamesTool (.constructionError "boom") "sdg_align" = false := by decide

/-- C9 amended: get_tool fails with an UnknownToolError naming the tool for
every unrecognized, unmemoized name; and a construction-time error raised
by a concrete tool constructor propagates out of get_tool unchanged (never
swallowed), with the tool name recorded in the log only, not attached to
the exception. In both cases the registry is unchanged. -/
theorem get_tool_error_propagation {τ : Type} (env : CtorEnv τ) :
    (∀ (f : Nat) (reg : Registry τ) (name : String),
      lookupS reg.tools name = none → name ∉ knownTools →
      get_tool env (f + 1) reg name = (reg, .error (.unknownTool name), [])) ∧
    (∀ (f : Nat) (reg : Registry τ) (name m : String),
      lookupS reg.tools name = none → name ∈ knownTools →
      (∀ p, predOf name = some p → ∃ x, lookupS reg.tools p = some x) →
      (dataRequired.contains name &&
        falsyPath ((lookupS reg.tool_configs name).getD ⟨none, none⟩).data_path) = false →
      env name ⟨reg.llm_config,
        embedderFromOverride
          (((lookupS reg.tool_configs name).getD ⟨none, none⟩).embedder_config.getD
            ⟨none, none, none⟩),
        ((lookupS reg.tool_configs name).getD ⟨none, none⟩).data_path⟩ = .error m →
      get_tool env (f + 2) reg name = (reg, .error (.constructionError m), [name])) := by
  constructor
  · intro f reg name hmem hk
    exact get_tool_unknown_step env f hmem hk
  · intro f reg name m hmem hk hpred hcond henv
    have hct : createTool env reg name = (.error (.constructionError m), [name]) := by
      rw [createTool_env env reg hcond, henv]
    have hfc : finishCreate env reg name =
        (reg, .error (.constructionError m), [name]) := by
      simp [finishCreate, hct]
    simp only [knownTools, List.mem_cons, List.not_mem_nil, or_false] at hk
    rcases hk with rfl | rfl | rfl | rfl | rfl | rfl
    · rw [show f + 2 = (f + 1) + 1 by omega, get_tool_search_step env (f + 1) hmem]
      exact hfc
    · obtain ⟨x, hx⟩ := hpred "tedx_search" (by simp [predOf])
      rw [show f + 2 = (f + 1) + 1 by omega, get_tool_slug_step env (f + 1) hmem,
        get_tool_memo env f hx]
      simp [afterPre, hfc]
    · obtain ⟨x, hx⟩ := hpred "tedx_slug" (by simp [predOf])
      rw [show f + 2 = (f + 1) + 1 by omega, get_tool_transcript_step env (f + 1) hmem,
        get_tool_memo env f hx]
      simp [afterPre, hfc]
    · rw [show f + 2 = (f + 1) + 1 by omega, get_tool_sdg_step env (f + 1) hmem]
      exact hfc
    · rw [show f + 2 = (f + 1) + 1 by omega, get_tool_sustain_step env (f + 1) hmem]
      exact hfc
    · rw [show f + 2 = (f + 1) + 1 by omega, get_tool_duck_step env (f + 1) hmem]
      exact hfc

/-- Witness for the amended C9: an unrecognized name fails with
UnknownToolError naming it, and a constructor raising "boom" propagates as
exactly that error with no name attached, registry unchanged. -/
theorem get_tool_error_propagation_witness :
    get_tool envBoom (0 + 1) regEmptyCfg "nonsense" =
        (regEmptyCfg, .error (.unknownTool "nonsense"), []) ∧
    get_tool envBoom (0 + 2) regEmptyCfg "sdg_align" =
        (regEmptyCfg, .error (.constructionError "boom"), ["sdg_align"]) :=
  ⟨(get_tool_error_propagation envBoom).1 0 regEmptyCfg "nonsense" rfl (by decide),
   (get_tool_error_propagation envBoom).2 0 regEmptyCfg "sdg_align" "boom" rfl (by decide)
     (fun p hp => by simp [predOf] at hp) (by decide) rfl⟩

/-! ## CrewAIManager: configuration initialization -/

/-- Inner `config` block of the model document
(`model_config["llm"]["config"]`). Temperature is modelled as an integer
(the code reads a float; the claims only compare it with 0). -/
structure RawLLMInner where
  model : Option String
  temperature : Option Int
deriving DecidableEq, Repr

/-- The `llm` block of the model document. -/
structure RawLLMSection where
  provider : Option String
  config : Option RawLLMInner
deriving DecidableEq, Repr

/-- Raw model configuration document as loaded by the config loader. -/
structure RawModelDoc where
  llm : Option RawLLMSection
deriving DecidableEq, Repr

/-- Errors of manager configuration initialization: a Python KeyError from a
strict mapping subscript, or the pydantic ValidationError enumerating every
violated field constraint. -/
inductive CfgErr where
  | keyError (k : String)
  | validation (violations : List (String × String))
deriving DecidableEq, Repr

/-- Flat llm values assembled by `_initialize_tool_config` into its
`llm_config` dict: provider, model, temperature. -/
structure LLMValues where
  provider : String
  model : String
  temperature : Int
deriving DecidableEq, Repr

/-- Combined tool configuration (`ToolConfig`): the llm values plus the
embedder configuration. -/
structure ToolConfig where
  llm : LLMValues
  embedder : EmbedderConfig
deriving DecidableEq, Repr

/-- Does the character list contain a non-whitespace character. -/
def hasNonWS : List Char → Bool
  | [] => false
  | c :: cs => (!c.isWhitespace) || hasNonWS cs

/-- Is the string blank, that is, empty after trimming whitespace. -/
def blankStr (s : String) : Bool := !(hasNonWS s.data)

/-- Modelled from the spec: the pydantic validation performed by
`ToolConfig(**tool_config_data)`; `schemas/config_schemas.py` is not under
the sources. Per spec section 4.1 and the data-model table, required string
fields must be non-empty after trimming, temperature must be at least 0,
and every violated field constraint is reported, not only the first. -/
def validateToolConfig (llm : LLMValues) (embedder : EmbedderConfig) :
    Except CfgErr ToolConfig :=
  let violations :=
    (if blankStr llm.model then [("llm.model", "must be a non-empty string")] else []) ++
    (if llm.temperature < 0 then
      [("llm.temperature", "must be greater than or equal to 0")] else []) ++
    (if blankStr embedder.provider then
      [("embedder.provider", "must be a non-empty string")] else []) ++
    (if blankStr embedder.model then
      [("embedder.model", "must be a non-empty string")] else [])
  if violations = [] then .ok ⟨llm, embedder⟩ else .error (.validation violations)

/-- Embedding of the list comprehension
`[tool_config["data_path"] for tool_config in self.tools_config.values()]`
in `_initialize_tool_config`: a strict subscript that raises KeyError for
the first tool entry lacking a data_path. -/
def collectDataPaths : List (String × RawToolEntry) → Except CfgErr (List String)
  | [] => .ok []
  | (_, e) :: rest =>
    match e.data_path with
    | none => .error (.keyError "data_path")
    | some p =>
      match collectDataPaths rest with
      | .ok ps => .ok (p :: ps)
      | .error err => .error err

/-- Embedding of `CrewAIManager._initialize_tool_config`: extract the llm
values with strict subscripts (KeyError when a nested key is missing),
default the temperature to 1 (the code uses 1.0 via `.get`), aggregate the
embedder data paths from every tools-document entry with a strict
subscript, then validate through the pydantic models. -/
def _initialize_tool_config (model_config : RawModelDoc)
    (tools_config : List (String × RawToolEntry)) : Except CfgErr ToolConfig :=
  match model_config.llm with
  | none => .error (.keyError "llm")
  | some sec =>
    match sec.provider with
    | none => .error (.keyError "provider")
    | some provider =>
      match sec.config with
      | none => .error (.keyError "config")
      | some inner =>
        match inner.model with
        | none => .error (.keyError "model")
        | some model =>
          let temperature := inner.temperature.getD 1
          match collectDataPaths tools_config with
          | .error e => .error e
          | .ok data_paths =>
            validateToolConfig ⟨provider, model, temperature⟩
              ⟨"ollama", "nomic-embed-text", data_paths⟩

/-! ## CrewAIManager: agents, tasks, crew -/

/-- One agents-document entry, passed through unchanged to the external
agent factory. -/
structure AgentCfg where
  role : Option String
  goal : Option String
  backstory : Option String
  tools : Option (List String)
deriving DecidableEq, Repr

/-- One tasks-document entry as read by `create_task`. -/
structure TaskCfg where
  agent : Option String
  description : Option String
  priority : Option Int
  expected_output : Option String
deriving DecidableEq, Repr

/-- Keyword arguments of the crewai `Task` constructor as assembled by
`create_task`; the constructed Task carries exactly these fields. -/
structure TaskKwargs (α : Type) where
  description : String
  agent : α
  priority : Int
  expected_output : String
deriving DecidableEq, Repr

/-- crewai process mode. -/
inductive Process where
  | sequential
  | hierarchical
deriving DecidableEq, Repr

/-- The crewai Crew object as assembled by `initialize_crew`. -/
structure Crew (α : Type) where
  agents : List α
  tasks : List (TaskKwargs α)
  process : Process
  memory : Bool
  embedder : EmbedderConfig
  max_rpm : Option Nat
  share_crew : Bool
  verbose : Bool
deriving DecidableEq, Repr

/-- Errors of manager task and crew assembly. `unknownTask` is the
ValueError for a task missing from the tasks document; `keyError` is the
Python KeyError from `self.agents_config[agent_name]` (the key may be None
when the task declared no agent); `agentError` is any exception from the
external agent factory; `taskError` any exception from the crewai Task
constructor; `emptyCrew` the ValueError requiring at least one agent and
one task. -/
inductive MErr where
  | unknownTask (name : String)
  | keyError (name : Option String)
  | agentError (msg : String)
  | taskError (msg : String)
  | emptyCrew
deriving DecidableEq, Repr

/-- External collaborators of the manager: the agent factory
(`crewai_manager/agent_factory.py`, not under the sources), which may
consult and thereby mutate the tool registry, and the crewai Task pydantic
validation, which may reject the assembled kwargs. -/
structure MEnv (τ α : Type) where
  agentFactory : String → AgentCfg → Registry τ → Registry τ × Except String α
  taskCheck : TaskKwargs α → Except String Unit

/-- State of a `CrewAIManager`: the loaded configuration documents, the
derived tool configuration, the owned tool registry, the agents table and
task list (`self.agents`, `self.tasks`), and the memory flag (set to true
at construction). The agents table is keyed by `task_config.get("agent")`,
which may be absent (None). -/
structure MState (τ α : Type) where
  agents_config : List (String × AgentCfg)
  tasks_config : List (String × TaskCfg)
  tool_config : ToolConfig
  registry : Registry τ
  agents : List (Option String × α)
  tasks : List (TaskKwargs α)
  memory : Bool
deriving DecidableEq

/-- Lookup in the agents table keyed by an optional name. -/
def lookupO {β : Type} : List (Option String × β) → Option String → Option β
  | [], _ => none
  | (k, v) :: rest, name => if k = name then some v else lookupO rest name

/-- Embedding of `CrewAIManager._create_agent`: look up the agent's
configuration with a strict subscript (KeyError when absent, including when
the task declared no agent at all) and call the external factory; any
failure is logged and re-raised. The guard on `self.tool_config.llm` and
`.embedder` cannot fire because the pydantic ToolConfig always carries both
sub-configs and a pydantic model instance is truthy, so it is not
represented. -/
def _create_agent {τ α : Type} (env : MEnv τ α) (st : MState τ α) (name : Option String) :
    Registry τ × Except MErr α :=
  match name with
  | none => (st.registry, .error (.keyError none))
  | some n =>
    match lookupS st.agents_config n with
    | none => (st.registry, .error (.keyError (some n)))
    | some cfg =>
      match env.agentFactory n cfg st.registry with
      | (reg', .ok a) => (reg', .ok a)
      | (reg', .error m) => (reg', .error (.agentError m))

/-- Embedding of `CrewAIManager.create_task`: strict membership check on
the tasks document (ValueError for an unknown task); if the task's declared
agent is not yet in the agents table, create it via `_create_agent` and
memoize it under the task's agent key; then build the Task with priority
defaulting to 2 and expected_output defaulting to the fixed placeholder,
and append it to the task list. The post-state is returned even on failure,
mirroring in-place mutation. -/
def create_task {τ α : Type} (env : MEnv τ α) (st : MState τ α) (task_name : String) :
    MState τ α × Except MErr Unit :=
  match lookupS st.tasks_config task_name with
  | none => (st, .error (.unknownTask task_name))
  | some task_config =>
    let agent_name := task_config.agent
    let build : MState τ α → α → MState τ α × Except MErr Unit := fun st' agent =>
      let task : TaskKwargs α :=
        { description := task_config.description.getD ""
          agent := agent
          priority := task_config.priority.getD 2
          expected_output := task_config.expected_output.getD "No output specified." }
      match env.taskCheck task with
      | .error m => (st', .error (.taskError m))
      | .ok _ => ({ st' with tasks := st'.tasks ++ [task] }, .ok ())
    match lookupO st.agents agent_name with
    | some agent => build st agent
    | none =>
      match _create_agent env st agent_name with
      | (reg', .error e) => ({ st with registry := reg' }, .error e)
      | (reg', .ok a) =>
        build { st with registry := reg', agents := st.agents ++ [(agent_name, a)] } a

/-- Embedding of `CrewAIManager.initialize_crew`: attempt `create_task` for
every task of the tasks document in document order, catching and logging
(dropping) each per-task failure; then require at least one agent and one
task, else raise the empty-crew ValueError producing no Crew; finally
assemble the Crew with sequential process and the manager's memory flag.
The crewai Crew constructor receives already-typed cargo here and is
modelled as total. -/
def initialize_crew {τ α : Type} (env : MEnv τ α) (st : MState τ α) :
    MState τ α × Except MErr (Crew α) :=
  let st' := st.tasks_config.foldl (fun s p => (create_task env s p.1).1) st
  if st'.agents.isEmpty || st'.tasks.isEmpty then
    (st', .error .emptyCrew)
  else
    (st', .ok {
      agents := st'.agents.map Prod.snd
      tasks := st'.tasks
      process := .sequential
      memory := st'.memory
      embedder := st'.tool_config.embedder
      max_rpm := none
      share_crew := false
      verbose := true })

/-! ## Manager lemmas -/

theorem create_task_preserves {τ α : Type} (env : MEnv τ α) (st : MState τ α) (n : String) :
    (create_task env st n).1.tasks_config = st.tasks_config ∧
    (create_task env st n).1.agents_config = st.agents_config ∧
    (create_task env st n).1.tool_config = st.tool_config ∧
    (create_task env st n).1.memory = st.memory := by
  refine ⟨?_, ?_, ?_, ?_⟩ <;>
    (simp only [create_task]; repeat' split) <;> rfl

theorem _create_agent_ok {τ α : Type} {env : MEnv τ α} {st : MState τ α}
    {name : Option String} {reg' : Registry τ} {a : α}
    (h : _create_agent env st name = (reg', .ok a)) :
    ∃ nm cfg, name = some nm ∧ lookupS st.agents_config nm = some cfg ∧
      env.agentFactory nm cfg st.registry = (reg', .ok a) := by
  cases name with
  | none => exact Except.noConfusion (congrArg Prod.snd h)
  | some n =>
    simp only [_create_agent] at h
    cases hl : lookupS st.agents_config n with
    | none => rw [hl] at h; exact Except.noConfusion (congrArg Prod.snd h)
    | some cfg =>
      rw [hl] at h
      simp only at h
      rcases hf : env.agentFactory n cfg st.registry with ⟨reg₂, r₂⟩
      rw [hf] at h
      cases r₂ with
      | ok b =>
        injection h with h1 h2
        injection h2 with h2
        subst h1; subst h2
        exact ⟨n, cfg, rfl, hl, hf⟩
      | error m => exact Except.noConfusion (congrArg Prod.snd h)

theorem create_task_ok {τ α : Type} {env : MEnv τ α} {st st' : MState τ α} {n : String}
    (h : create_task env st n = (st', .ok ())) :
    ∃ task_config agent,
      lookupS st.tasks_config n = some task_config ∧
      st'.tasks = st.tasks ++
        [{ description := task_config.description.getD ""
           agent := agent
           priority := task_config.priority.getD 2
           expected_output := task_config.expected_output.getD "No output specified." }] ∧
      ((lookupO st.agents task_config.agent = some agent ∧ st'.agents = st.agents) ∨
       (lookupO st.agents task_config.agent = none ∧
        st'.agents = st.agents ++ [(task_config.agent, agent)] ∧
        ∃ nm cfg, task_config.agent = some nm ∧
          lookupS st.agents_config nm = some cfg)) := by
  simp only [create_task] at h
  cases hl : lookupS st.tasks_config n with
  | none => rw [hl] at h; exact Except.noConfusion (congrArg Prod.snd h)
  | some tc =>
    rw [hl] at h
    simp only at h
    cases hlo : lookupO st.agents tc.agent with
    | some agent =>
      rw [hlo] at h
      simp only at h
      cases htc : env.taskCheck
          { description := tc.description.getD ""
            agent := agent
            priority := tc.priority.getD 2
            expected_output := tc.expected_output.getD "No output specified." } with
      | error m => rw [htc] at h; exact Except.noConfusion (congrArg Prod.snd h)
      | ok u =>
        rw [htc] at h
        injection h with h1 h2
        subst h1
        exact ⟨tc, agent, rfl, rfl, .inl ⟨hlo, rfl⟩⟩
    | none =>
      rw [hlo] at h
      simp only at h
      rcases hca : _create_agent env st tc.agent with ⟨reg', r⟩
      rw [hca] at h
      cases r with
      | error e => exact Except.noConfusion (congrArg Prod.snd h)
      | ok a =>
        simp only at h
        cases htc : env.taskCheck
            { description := tc.description.getD ""
              agent := a
              priority := tc.priority.getD 2
              expected_output := tc.expected_output.getD "No output specified." } with
        | error m => rw [htc] at h; exact Except.noConfusion (congrArg Prod.snd h)
        | ok u =>
          rw [htc] at h
          injection h with h1 h2
          subst h1
          obtain ⟨nm, cfg, hnm, hcfg, -⟩ := _create_agent_ok hca
          exact ⟨tc, a, rfl, rfl, .inr ⟨hlo, rfl, nm, cfg, hnm, hcfg⟩⟩

theorem _create_agent_err_key {τ α : Type} {env : MEnv τ α} {st : MState τ α}
    {name : Option String} {reg' : Registry τ} {e : MErr}
    (h : _create_agent env st name = (reg', .error e)) :
    e ≠ .unknownTask "" ∧ (∀ n, e ≠ .unknownTask n) := by
  refine ⟨?_, ?_⟩
  · intro he
    subst he
    cases name with
    | none =>
      injection h with h1 h2
      exact MErr.noConfusion (Except.error.inj h2)
    | some n =>
      simp only [_create_agent] at h
      cases hl : lookupS st.agents_config n with
      | none =>
        rw [hl] at h
        injection h with h1 h2
        exact MErr.noConfusion (Except.error.inj h2)
      | some cfg =>
        rw [hl] at h
        simp only at h
        rcases hf : env.agentFactory n cfg st.registry with ⟨reg₂, r₂⟩
        rw [hf] at h
        cases r₂ with
        | ok b => exact Except.noConfusion (congrArg Prod.snd h)
        | error m =>
          injection h with h1 h2
          exact MErr.noConfusion (Except.error.inj h2)
  · intro nm he
    subst he
    cases name with
    | none =>
      injection h with h1 h2
      exact MErr.noConfusion (Except.error.inj h2)
    | some n =>
      simp only [_create_agent] at h
      cases hl : lookupS st.agents_config n with
      | none =>
        rw [hl] at h
        injection h with h1 h2
        exact MErr.noConfusion (Except.error.inj h2)
      | some cfg =>
        rw [hl] at h
        simp only at h
        rcases hf : env.agentFactory n cfg st.registry with ⟨reg₂, r₂⟩
        rw [hf] at h
        cases r₂ with
        | ok b => exact Except.noConfusion (congrArg Prod.snd h)
        | error m =>
          injection h with h1 h2
          exact MErr.noConfusion (Except.error.inj h2)

theorem create_task_err {τ α : Type} {env : MEnv τ α} {st st' : MState τ α} {n : String}
    {e : MErr} (h : create_task env st n = (st', .error e)) :
    st'.tasks = st.tasks ∧
    (∀ k, e = .keyError k → st'.agents = st.agents) ∧
    (∀ m, e = .agentError m → st'.agents = st.agents) ∧
    (e = .unknownTask n → st' = st) := by
  simp only [create_task] at h
  cases hl : lookupS st.tasks_config n with
  | none =>
    rw [hl] at h
    injection h with h1 h2
    injection h2 with h2
    subst h1; subst h2
    exact ⟨rfl, fun _ _ => rfl, fun _ _ => rfl, fun _ => rfl⟩
  | some tc =>
    rw [hl] at h
    simp only at h
    cases hlo : lookupO st.agents tc.agent with
    | some agent =>
      rw [hlo] at h
      simp only at h
      cases htc : env.taskCheck
          { description := tc.description.getD ""
            agent := agent
            priority := tc.priority.getD 2
            expected_output := tc.expected_output.getD "No output specified." } with
      | ok u => rw [htc] at h; exact Except.noConfusion (congrArg Prod.snd h)
      | error m =>
        rw [htc] at h
        injection h with h1 h2
        injection h2 with h2
        subst h1; subst h2
        refine ⟨rfl, ?_, ?_, ?_⟩
        · intro k hk; cases hk
        · intro m' hm; cases hm
        · intro hu; cases hu
    | none =>
      rw [hlo] at h
      simp only at h
      rcases hca : _create_agent env st tc.agent with ⟨reg', r⟩
      rw [hca] at h
      cases r with
      | error e' =>
        injection h with h1 h2
        injection h2 with h2
        subst h1; subst h2
        refine ⟨rfl, fun _ _ => rfl, fun _ _ => rfl, ?_⟩
        intro hu
        exact absurd hu ((_create_agent_err_key hca).2 n)
      | ok a =>
        simp only at h
        cases htc : env.taskCheck
            { description := tc.description.getD ""
              agent := a
              priority := tc.priority.getD 2
              expected_output := tc.expected_output.getD "No output specified." } with
        | ok u => rw [htc] at h; exact Except.noConfusion (congrArg Prod.snd h)
        | error m =>
          rw [htc] at h
          injection h with h1 h2
          injection h2 with h2
          subst h1; subst h2
          refine ⟨rfl, ?_, ?_, ?_⟩
          · intro k hk; cases hk
          · intro m' hm; cases hm
          · intro hu; cases hu

/-! ## Manager claim theorems -/

def tc0 : ToolConfig := ⟨⟨"ollama", "llama3", 1⟩, emb0⟩

def acfg0 : AgentCfg := ⟨some "researcher", some "research", some "story", some []⟩

/-- Manager environment for witnesses: the agent factory always succeeds
with agent 7 leaving the registry unchanged, and the Task validation always
accepts. -/
def envM0 : MEnv Nat Nat := ⟨fun _ _ reg => (reg, .ok 7), fun _ => .ok ()⟩

/-- Manager state whose single task references the agent bob, absent from
the agents document. -/
def stC10 : MState Nat Nat :=
  { agents_config := [("alice", acfg0)]
    tasks_config := [("t1", ⟨some "bob", some "d1", none, none⟩)]
    tool_config := tc0
    registry := regEmptyCfg
    agents := []
    tasks := []
    memory := true }

/-- Manager state with one task bound to the configured agent alice,
omitting priority and expected_output. -/
def stD : MState Nat Nat :=
  { stC10 with tasks_config := [("t1", ⟨some "alice", some "d", none, none⟩)] }

/-- C10 (implicit): create_task is atomic with respect to the pipeline task
sequence: on any failure the manager's task list is unchanged; a Task is
appended exactly when construction fully succeeded; and a failed agent
construction (agent-config key lookup failure or agent factory failure)
leaves the agents table unchanged, so no entry is recorded for that agent
name. -/
theorem create_task_atomic {τ α : Type} (env : MEnv τ α) (st : MState τ α) (n : String) :
    (∀ e, (create_task env st n).2 = .error e → (create_task env st n).1.tasks = st.tasks) ∧
    ((create_task env st n).2 = .ok () →
      ∃ t, (create_task env st n).1.tasks = st.tasks ++ [t]) ∧
    (∀ k, (create_task env st n).2 = .error (.keyError k) →
      (create_task env st n).1.agents = st.agents) ∧
    (∀ m, (create_task env st n).2 = .error (.agentError m) →
      (create_task env st n).1.agents = st.agents) := by
  rcases hct : create_task env st n with ⟨st', r⟩
  cases r with
  | ok u =>
    cases u
    obtain ⟨tc, agent, -, htasks, -⟩ := create_task_ok hct
    refine ⟨?_, ?_, ?_, ?_⟩
    · intro e he; exact Except.noConfusion he
    · intro _; exact ⟨_, htasks⟩
    · intro k hk; exact Except.noConfusion hk
    · intro m hm; exact Except.noConfusion hm
  | error e =>
    obtain ⟨htasks, hkey, hagent, -⟩ := create_task_err hct
    refine ⟨fun e' he' => htasks, ?_, ?_, ?_⟩
    · intro hok; exact Except.noConfusion hok
    · intro k hk
      injection hk with hk
      exact hkey k hk
    · intro m hm
      injection hm with hm
      exact hagent m hm

/-- Witness for C10: the task referencing the unconfigured agent bob fails,
and neither the agents table nor the task list changes. -/
theorem create_task_atomic_witness :
    (create_task envM0 stC10 "t1").1.agents = stC10.agents ∧
    (create_task envM0 stC10 "t1").1.tasks = stC10.tasks :=
  ⟨(create_task_atomic envM0 stC10 "t1").2.2.1 (some "bob") (by decide),
   (create_task_atomic envM0 stC10 "t1").1 (.keyError (some "bob")) (by decide)⟩

/-- C7: a task entry that omits priority and expected_output yields, on
successful construction, a Task with priority 2 and the fixed non-empty
placeholder expected_output. -/
theorem task_defaults {τ α : Type} (env : MEnv τ α) (st st' : MState τ α) (n : String)
    (task_config : TaskCfg)
    (hcfg : lookupS st.tasks_config n = some task_config)
    (hp : task_config.priority = none)
    (he : task_config.expected_output = none)
    (hok : create_task env st n = (st', .ok ())) :
    ∃ t, st'.tasks = st.tasks ++ [t] ∧ t.priority = 2 ∧
      t.expected_output = "No output specified." ∧ t.expected_output ≠ "" := by
  obtain ⟨tc, agent, hcfg', htasks, -⟩ := create_task_ok hok
  rw [hcfg] at hcfg'
  injection hcfg' with hcfg'
  subst hcfg'
  refine ⟨_, htasks, ?_, ?_, ?_⟩
  · simp [hp]
  · simp [he]
  · simp [he]

/-- Witness for C7: the concrete task omitting priority and expected_output
is appended with priority 2 and the placeholder output. -/
theorem task_defaults_witness :
    ∃ t, (create_task envM0 stD "t1").1.tasks = stD.tasks ++ [t] ∧ t.priority = 2 ∧
      t.expected_output = "No output specified." ∧ t.expected_output ≠ "" :=
  task_defaults envM0 stD (create_task envM0 stD "t1").1 "t1"
    ⟨some "alice", some "d", none, none⟩ rfl rfl rfl (by decide)

theorem foldl_create_task_memory {τ α : Type} (env : MEnv τ α) :
    ∀ (l : List (String × TaskCfg)) (s : MState τ α),
      (l.foldl (fun s p => (create_task env s p.1).1) s).memory = s.memory := by
  intro l
  induction l with
  | nil => intro s; rfl
  | cons p rest ih =>
    intro s
    rw [List.foldl_cons, ih]
    exact (create_task_preserves env s p.1).2.2.2

/-- C4: initialize_crew fails with the empty-crew error, producing no crew
object, exactly when the pass over the tasks document ends with no
successfully constructed agents or no successfully constructed tasks; the
empty-crew error is the only error it can raise; and with at least one
agent and one task it returns a crew with sequential process mode, memory
enabled, and exactly the accumulated tasks and agents. -/
theorem initialize_crew_empty_iff {τ α : Type} (env : MEnv τ α) (st : MState τ α)
    (hm : st.memory = true) :
    ((initialize_crew env st).2 = .error .emptyCrew ↔
      ((initialize_crew env st).1.agents = [] ∨ (initialize_crew env st).1.tasks = [])) ∧
    (∀ e, (initialize_crew env st).2 = .error e → e = .emptyCrew) ∧
    ((initialize_crew env st).1.agents ≠ [] → (initialize_crew env st).1.tasks ≠ [] →
      ∃ crew, (initialize_crew env st).2 = .ok crew ∧ crew.process = .sequential ∧
        crew.memory = true ∧ crew.tasks = (initialize_crew env st).1.tasks ∧
        crew.agents = (initialize_crew env st).1.agents.map Prod.snd) := by
  have hmem' : (st.tasks_config.foldl (fun s p => (create_task env s p.1).1) st).memory
      = true := by rw [foldl_create_task_memory env st.tasks_config st]; exact hm
  simp only [initialize_crew]
  by_cases hc : ((st.tasks_config.foldl (fun s p => (create_task env s p.1).1) st).agents.isEmpty
      || (st.tasks_config.foldl (fun s p => (create_task env s p.1).1) st).tasks.isEmpty) = true
  · rw [if_pos hc]
    simp only [Bool.or_eq_true, List.isEmpty_iff] at hc
    refine ⟨⟨fun _ => hc, fun _ => rfl⟩, fun e he => ?_, fun hA hT => ?_⟩
    · injection he with he; exact he.symm
    · rcases hc with h | h
      · exact absurd h hA
      · exact absurd h hT
  · rw [if_neg hc]
    simp only [Bool.or_eq_true, List.isEmpty_iff] at hc
    push_neg at hc
    refine ⟨?_, fun e he => Except.noConfusion he, fun hA hT => ?_⟩
    · exact iff_of_false (fun hh => Except.noConfusion hh)
        (by rintro (h | h); exacts [hc.1 h, hc.2 h])
    · exact ⟨_, rfl, rfl, hmem', rfl, rfl⟩

/-- Witness for C4: on a state with one valid task/agent pair, a crew is
returned with sequential process mode, memory enabled, and the accumulated
tasks and agents. -/
theorem initialize_crew_empty_iff_witness :
    ∃ crew, (initialize_crew envM0 stD).2 = .ok crew ∧ crew.process = .sequential ∧
      crew.memory = true ∧ crew.tasks = (initialize_crew envM0 stD).1.tasks ∧
      crew.agents = (initialize_crew envM0 stD).1.agents.map Prod.snd :=
  (initialize_crew_empty_iff envM0 stD rfl).2.2 (by decide) (by decide)

/-- C3: in a three-entry tasks document whose second task references an
agent absent from the agents document, the failing second task is caught
and dropped while the first and third tasks construct; initialize_crew does
not raise, and the resulting crew contains exactly the tasks of entries one
and three, in document order. -/
theorem partial_failure_containment {τ α : Type} (env : MEnv τ α)
    (st s1 s3 : MState τ α) (n1 n2 n3 : String) (c1 c2 c3 : TaskCfg) (a2 : String)
    (hdoc : st.tasks_config = [(n1, c1), (n2, c2), (n3, c3)])
    (h12 : n1 ≠ n2) (h13 : n1 ≠ n3) (h23 : n2 ≠ n3)
    (hA0 : st.agents = []) (hT0 : st.tasks = [])
    (h1 : create_task env st n1 = (s1, .ok ()))
    (hc2a : c2.agent = some a2)
    (ha2 : lookupS st.agents_config a2 = none)
    (h3 : create_task env (create_task env s1 n2).1 n3 = (s3, .ok ())) :
    (create_task env s1 n2).2 = .error (.keyError (some a2)) ∧
    ∃ t1 t3 crew,
      s1.tasks = [t1] ∧ s3.tasks = [t1, t3] ∧
      initialize_crew env st = (s3, .ok crew) ∧
      crew.tasks = [t1, t3] ∧ crew.process = .sequential ∧
      t1.description = c1.description.getD "" ∧
      t3.description = c3.description.getD "" := by
  obtain ⟨tc1, ag1, hcfg1, htasks1, hbr1⟩ := create_task_ok h1
  rw [hdoc] at hcfg1
  have hl1 : lookupS [(n1, c1), (n2, c2), (n3, c3)] n1 = some c1 := by simp [lookupS]
  rw [hl1] at hcfg1
  injection hcfg1 with hcfg1
  subst hcfg1
  rw [hT0] at htasks1
  simp only [List.nil_append] at htasks1
  rcases hbr1 with ⟨hlook, -⟩ | ⟨-, hagents1, nm, acfg, hc1a, hacfg⟩
  · rw [hA0] at hlook; simp [lookupO] at hlook
  rw [hA0] at hagents1
  simp only [List.nil_append] at hagents1
  have h1a : (create_task env st n1).1 = s1 := congrArg Prod.fst h1
  have hs1tc : s1.tasks_config = st.tasks_config := by
    rw [← h1a]; exact (create_task_preserves env st n1).1
  have hs1ac : s1.agents_config = st.agents_config := by
    rw [← h1a]; exact (create_task_preserves env st n1).2.1
  have hnm : nm ≠ a2 := by
    intro hh
    rw [hh, ha2] at hacfg
    cases hacfg
  have hl2 : lookupS s1.tasks_config n2 = some c2 := by
    rw [hs1tc, hdoc]; simp [lookupS, h12]
  have hlo2 : lookupO s1.agents (some a2) = none := by
    rw [hagents1, hc1a]
    simp [lookupO, hnm]
  have hac2 : lookupS s1.agents_config a2 = none := by rw [hs1ac]; exact ha2
  have hstep2 : create_task env s1 n2 = (s1, .error (.keyError (some a2))) := by
    simp only [create_task, hl2, hc2a, hlo2, _create_agent, hac2]
  have hs2 : (create_task env s1 n2).1 = s1 := by rw [hstep2]
  rw [hs2] at h3
  obtain ⟨tc3, ag3, hcfg3, htasks3, hbr3⟩ := create_task_ok h3
  have hl3 : lookupS s1.tasks_config n3 = some c3 := by
    rw [hs1tc, hdoc]; simp [lookupS, h13, h23]
  rw [hl3] at hcfg3
  injection hcfg3 with hcfg3
  subst hcfg3
  rw [htasks1] at htasks3
  simp only [List.cons_append, List.nil_append] at htasks3
  have hs3ag : s3.agents ≠ [] := by
    rcases hbr3 with ⟨-, heq⟩ | ⟨-, heq, -⟩
    · rw [heq, hagents1]; simp
    · rw [heq, hagents1]; simp
  have hfold : st.tasks_config.foldl (fun s p => (create_task env s p.1).1) st = s3 := by
    rw [hdoc]
    simp only [List.foldl_cons, List.foldl_nil]
    rw [h1a, hs2]
    exact congrArg Prod.fst h3
  have hinit : initialize_crew env st = (s3, .ok {
      agents := s3.agents.map Prod.snd
      tasks := s3.tasks
      process := .sequential
      memory := s3.memory
      embedder := s3.tool_config.embedder
      max_rpm := none
      share_crew := false
      verbose := true }) := by
    simp only [initialize_crew, hfold]
    rw [if_neg (by simp [List.isEmpty_iff, htasks3, hs3ag])]
  refine ⟨by rw [hstep2], _, _, _, htasks1, htasks3, hinit, htasks3, rfl, rfl, rfl⟩

/-- Three-task manager state for the C3 witness: tasks one and three
reference the configured agent alice, task two references the unconfigured
agent bob. -/
def stW3 : MState Nat Nat :=
  { stC10 with tasks_config :=
      [("t1", ⟨some "alice", some "d1", none, none⟩),
       ("t2", ⟨some "bob", some "d2", none, none⟩),
       ("t3", ⟨some "alice", some "d3", none, none⟩)] }

/-- Witness for C3 on the concrete three-task document: task two fails with
the unknown-agent KeyError and is dropped, and the crew holds exactly the
tasks of entries one and three. -/
theorem partial_failure_containment_witness :
    (create_task envM0 (create_task envM0 stW3 "t1").1 "t2").2 =
        .error (.keyError (some "bob")) ∧
    ∃ t1 t3 crew,
      (create_task envM0 stW3 "t1").1.tasks = [t1] ∧
      (create_task envM0
        (create_task envM0 (create_task envM0 stW3 "t1").1 "t2").1 "t3").1.tasks
        = [t1, t3] ∧
      initialize_crew envM0 stW3 =
        ((create_task envM0
          (create_task envM0 (create_task envM0 stW3 "t1").1 "t2").1 "t3").1, .ok crew) ∧
      crew.tasks = [t1, t3] ∧ crew.process = .sequential ∧
      t1.description = "d1" ∧ t3.description = "d3" :=
  partial_failure_containment envM0 stW3 (create_task envM0 stW3 "t1").1
    (create_task envM0 (create_task envM0 (create_task envM0 stW3 "t1").1 "t2").1 "t3").1
    "t1" "t2" "t3"
    ⟨some "alice", some "d1", none, none⟩ ⟨some "bob", some "d2", none, none⟩
    ⟨some "alice", some "d3", none, none⟩ "bob"
    rfl (by decide) (by decide) (by decide) rfl rfl (by decide) rfl (by decide) (by decide)

/-! ## Configuration validation (C5, C6) -/

/-- Model document that is structurally present but lacks the `model` key
and carries temperature -1. -/
def docC5 : RawModelDoc := ⟨some ⟨some "openai", some ⟨none, some (-1)⟩⟩⟩

/-- Tools document whose single entry carries a data path. -/
def toolsOkDoc : List (String × RawToolEntry) := [("x", ⟨some "data/x.csv", none⟩)]

/-- Counterexample to C5 as stated: with `model` missing and temperature
-1, `_initialize_tool_config` stops at the strict subscript
`model_config["llm"]["config"]["model"]` with a KeyError naming only
`model`; the validation that would enumerate every violation is never
reached, so no ConfigValidationError reporting both violations is
produced. -/
theorem validation_completeness_cex :
    _initialize_tool_config docC5 toolsOkDoc = .error (.keyError "model") ∧
    ∀ vs, _initialize_tool_config docC5 toolsOkDoc ≠ .error (.validation vs) := by
  constructor
  · decide
  · intro vs h
    rw [show _initialize_tool_config docC5 toolsOkDoc = .error (.keyError "model") from
      by decide] at h
    injection h with h
    cases h

/-- C5 amended: when the model document's nested keys llm, provider,
config and model are all present, validation is complete: a model value
that trims to empty and a negative temperature are reported together in a
single validation error, not just the first of them. A document missing one
of the nested keys instead fails earlier, at the extraction step, with a
KeyError naming that key. -/
theorem validation_completeness_amended (doc : RawModelDoc)
    (sec : RawLLMSection) (inner : RawLLMInner) (provider model : String) (t : Int)
    (tools : List (String × RawToolEntry)) (ps : List String)
    (hllm : doc.llm = some sec) (hprov : sec.provider = some provider)
    (hconf : sec.config = some inner) (hmodel : inner.model = some model)
    (htemp : inner.temperature = some t)
    (hpaths : collectDataPaths tools = .ok ps)
    (hm : blankStr model = true) (ht : t < 0) :
    _initialize_tool_config doc tools =
      .error (.validation
        [("llm.model", "must be a non-empty string"),
         ("llm.temperature", "must be greater than or equal to 0")]) := by
  simp only [_initialize_tool_config, hllm, hprov, hconf, hmodel, htemp, Option.getD,
    hpaths]
  simp only [validateToolConfig]
  rw [if_pos hm, if_pos ht]
  rfl

/-- Model document with the model value a blank string and temperature
-1. -/
def docC5w : RawModelDoc := ⟨some ⟨some "openai", some ⟨some " ", some (-1)⟩⟩⟩

/-- Witness for the amended C5: both the empty-after-trimming model and the
negative temperature are reported in one validation error. -/
theorem validation_completeness_amended_witness :
    _initialize_tool_config docC5w toolsOkDoc =
      .error (.validation
        [("llm.model", "must be a non-empty string"),
         ("llm.temperature", "must be greater than or equal to 0")]) :=
  validation_completeness_amended docC5w _ _ "openai" " " (-1) toolsOkDoc ["data/x.csv"]
    rfl rfl rfl rfl rfl rfl (by decide) (by decide)

theorem collectDataPaths_all_some :
    ∀ (l : List (String × RawToolEntry)), (∀ p ∈ l, (p.2).data_path.isSome) →
      collectDataPaths l = .ok (l.map fun p => p.2.data_path.getD "") := by
  intro l
  induction l with
  | nil => intro _; rfl
  | cons p rest ih =>
    intro hall
    obtain ⟨k, e⟩ := p
    have hp := hall (k, e) (List.mem_cons_self _ _)
    cases hdp : e.data_path with
    | none => rw [hdp] at hp; simp at hp
    | some q =>
      simp only [collectDataPaths, hdp]
      rw [ih fun q hq => hall q (List.mem_cons_of_mem _ hq)]
      simp [hdp]

theorem collectDataPaths_missing :
    ∀ (l : List (String × RawToolEntry)), (∃ p ∈ l, p.2.data_path = none) →
      collectDataPaths l = .error (.keyError "data_path") := by
  intro l
  induction l with
  | nil => rintro ⟨p, hp, -⟩; simp at hp
  | cons q rest ih =>
    rintro ⟨p, hp, hnone⟩
    obtain ⟨k, e⟩ := q
    rcases List.mem_cons.mp hp with rfl | hp'
    · have hnone' : e.data_path = none := hnone
      simp only [collectDataPaths, hnone']
    · cases hdp : e.data_path with
      | none => simp only [collectDataPaths, hdp]
      | some v =>
        simp only [collectDataPaths, hdp]
        rw [ih ⟨p, hp', hnone⟩]

/-- Tools document for C6: tool a declares a data path, tool b does not. -/
def toolsC6 : List (String × RawToolEntry) :=
  [("a", ⟨some "data/a.csv", none⟩), ("b", ⟨none, none⟩)]

/-- Model document with all keys present and valid values. -/
def docOkModel : RawModelDoc := ⟨some ⟨some "openai", some ⟨some "gpt-4", some 0⟩⟩⟩

/-- Counterexample to C6 as stated: the tool b lacking a data_path is not
skipped; the aggregation fails with a KeyError and no embedder
configuration (and no ToolConfig) is produced at all. -/
theorem data_paths_cex :
    _initialize_tool_config docOkModel toolsC6 = .error (.keyError "data_path") ∧
    ∀ tc, _initialize_tool_config docOkModel toolsC6 ≠ .ok tc := by
  constructor
  · decide
  · intro tc h
    rw [show _initialize_tool_config docOkModel toolsC6 = .error (.keyError "data_path")
      from by decide] at h
    exact Except.noConfusion h

/-- C6 amended: the embedder data_paths are the data_path values of all
tools-document entries in document iteration order when every entry
declares one; an entry without a data_path is not skipped but makes
`_initialize_tool_config` fail with a KeyError for `data_path`. -/
theorem data_paths_amended (doc : RawModelDoc) (sec : RawLLMSection)
    (inner : RawLLMInner) (provider model : String) (t : Int)
    (tools : List (String × RawToolEntry))
    (hllm : doc.llm = some sec) (hprov : sec.provider = some provider)
    (hconf : sec.config = some inner) (hmodel : inner.model = some model)
    (htemp : inner.temperature = some t)
    (hmv : blankStr model = false) (htv : 0 ≤ t) :
    ((∀ p ∈ tools, (p.2).data_path.isSome) →
      _initialize_tool_config doc tools =
        .ok ⟨⟨provider, model, t⟩,
          ⟨"ollama", "nomic-embed-text", tools.map fun p => p.2.data_path.getD ""⟩⟩) ∧
    ((∃ p ∈ tools, p.2.data_path = none) →
      _initialize_tool_config doc tools = .error (.keyError "data_path")) := by
  constructor
  · intro hall
    simp only [_initialize_tool_config, hllm, hprov, hconf, hmodel, htemp, Option.getD]
    rw [collectDataPaths_all_some tools hall]
    simp only [validateToolConfig]
    rw [if_neg (show ¬(blankStr model = true) by rw [hmv]; exact Bool.false_ne_true),
      if_neg (not_lt.mpr htv)]
    rfl
  · intro hex
    simp only [_initialize_tool_config, hllm, hprov, hconf, hmodel, htemp]
    rw [collectDataPaths_missing tools hex]

/-- Tools document in which every entry declares a data path. -/
def toolsAllPaths : List (String × RawToolEntry) :=
  [("a", ⟨some "data/a.csv", none⟩), ("b", ⟨some "data/b.csv", none⟩)]

/-- Witness for the amended C6: with every entry declaring a path the
embedder receives them in document order, and with one entry lacking a path
the initialization fails with the data_path KeyError. -/
theorem data_paths_amended_witness :
    _initialize_tool_config docOkModel toolsAllPaths =
      .ok ⟨⟨"openai", "gpt-4", 0⟩,
        ⟨"ollama", "nomic-embed-text", ["data/a.csv", "data/b.csv"]⟩⟩ ∧
    _initialize_tool_config docOkModel toolsC6 = .error (.keyError "data_path") :=
  ⟨(data_paths_amended docOkModel _ _ "openai" "gpt-4" 0 toolsAllPaths
      rfl rfl rfl rfl rfl (by decide) (by decide)).1 (by decide),
   (data_paths_amended docOkModel _ _ "openai" "gpt-4" 0 toolsC6
      rfl rfl rfl rfl rfl (by decide) (by decide)).2
      ⟨("b", ⟨none, none⟩), by decide, rfl⟩⟩
